import Mathlib

/-!
# iButton worker (`lib/one_wire/ibutton/ibutton_worker.c`)

A shallow embedding of the worker's control core: the worker record, the
callback setters, the mode switch and the thread loop, followed by the
properties of the mode state machine.

Conventions of the embedding

* A C pointer is an `Option Nat`: `none` is `NULL`, `some a` the object at `a`.
* `furi_check` / `furi_crash` terminate the firmware; a function that can hit one
  returns a result type with an explicit failure constructor.
* The thread blocks in `osMessageQueueGet`; the embedding takes the list of the
  statuses that the successive calls return and is total on it.
* The hook table `ibutton_worker_modes` is defined outside this file, so the
  table is a parameter of every function that dispatches through it.
-/

namespace IButtonWorker

/-! ## Data model -/

/-- The enum `iButtonMessageType` (lines 6-12). -/
inductive iButtonMessageType where
  | iButtonMessageEnd
  | iButtonMessageStop
  | iButtonMessageRead
  | iButtonMessageWrite
  | iButtonMessageEmulate
  deriving DecidableEq, Repr

/-- The struct `iButtonMessage` (lines 14-19): a type tag and the key pointer of
the union `data`; `ibutton_worker_stop` and `ibutton_worker_stop_thread` leave
the union zero-initialised. -/
structure iButtonMessage where
  type : iButtonMessageType
  key : Option Nat
  deriving DecidableEq, Repr

/-- Modelled from the spec: the enum `iButtonWorkerMode` is declared in
`ibutton_worker_i.h`; the spec names its four members and this file uses the
four constants `iButtonWorkerIdle`, `iButtonWorkerRead`, `iButtonWorkerWrite`,
`iButtonWorkerEmulate`. -/
inductive iButtonWorkerMode where
  | iButtonWorkerIdle
  | iButtonWorkerRead
  | iButtonWorkerWrite
  | iButtonWorkerEmulate
  deriving DecidableEq, Repr

/-- The struct `iButtonWorker`, with the fields that `ibutton_worker.c` reads or
writes.  The owned sub-objects (`key_data`, `host`, `slave`, `writer`, `device`,
`pulse_decoder`, the protocols, the encoders, `messages`, `thread`) are touched
here only by allocation and release; they are gathered in `hw`, whose type `H`
is left open.  There is one context field, `cb_ctx`. -/
structure iButtonWorker (H : Type) where
  key_p : Option Nat
  mode_index : iButtonWorkerMode
  last_dwt_value : Nat
  read_cb : Option Nat
  write_cb : Option Nat
  emulate_cb : Option Nat
  cb_ctx : Option Nat
  hw : H
  deriving DecidableEq, Repr

/-- One entry of `ibutton_worker_modes`: the wait `quant` and the three hooks.
A hook receives the worker pointer, so it is a function on the whole record. -/
structure iButtonWorkerModeType (H : Type) where
  quant : Nat
  start : iButtonWorker H → iButtonWorker H
  tick : iButtonWorker H → iButtonWorker H
  stop : iButtonWorker H → iButtonWorker H

/-- The table `ibutton_worker_modes`, indexed by `mode_index`. -/
abbrev ModeTable (H : Type) := iButtonWorkerMode → iButtonWorkerModeType H

/-- What one call of `osMessageQueueGet` (lines 161-162) hands to the loop:
`osOK` with the message, `osErrorTimeout`, or any other status.  The timeout
argument, the current mode's `quant`, only bears on which status the queue
returns; the statuses are supplied from outside, so no status is excluded. -/
inductive QueueGet where
  | osOK (message : iButtonMessage)
  | osErrorTimeout
  | osErrorOther
  deriving DecidableEq, Repr

/-- Instrumentation of the thread: the hook that is called, with the mode whose
table entry is used, and the assignment to `mode_index` in
`ibutton_worker_switch_mode`. -/
inductive Event where
  | start (m : iButtonWorkerMode)
  | stop (m : iButtonWorkerMode)
  | tick (m : iButtonWorkerMode)
  | assign (m : iButtonWorkerMode)
  deriving DecidableEq, Repr

/-- Result of a function guarded by `furi_check`: the worker after a normal
return, or the worker as it is when the check fails. -/
inductive Checked (H : Type) where
  | ok (worker : iButtonWorker H)
  | furi_check_failed (worker : iButtonWorker H)
  deriving DecidableEq, Repr

/-! ## Allocation and callback registration -/

/-- The function `ibutton_worker_alloc` (lines 23-61); `hw0` stands for the
freshly allocated sub-objects. -/
def ibutton_worker_alloc {H : Type} (hw0 : H) : iButtonWorker H :=
  { key_p := none
    mode_index := .iButtonWorkerIdle
    last_dwt_value := 0
    read_cb := none
    write_cb := none
    emulate_cb := none
    cb_ctx := none
    hw := hw0 }

/-- The function `ibutton_worker_read_set_callback` (lines 63-70). -/
def ibutton_worker_read_set_callback {H : Type} (worker : iButtonWorker H)
    (callback context : Option Nat) : Checked H :=
  if worker.mode_index = .iButtonWorkerIdle then
    .ok { worker with read_cb := callback, cb_ctx := context }
  else .furi_check_failed worker

/-- The function `ibutton_worker_write_set_callback` (lines 72-79). -/
def ibutton_worker_write_set_callback {H : Type} (worker : iButtonWorker H)
    (callback context : Option Nat) : Checked H :=
  if worker.mode_index = .iButtonWorkerIdle then
    .ok { worker with write_cb := callback, cb_ctx := context }
  else .furi_check_failed worker

/-- The function `ibutton_worker_emulate_set_callback` (lines 81-88). -/
def ibutton_worker_emulate_set_callback {H : Type} (worker : iButtonWorker H)
    (callback context : Option Nat) : Checked H :=
  if worker.mode_index = .iButtonWorkerIdle then
    .ok { worker with emulate_cb := callback, cb_ctx := context }
  else .furi_check_failed worker

/-! ## Messages built by the facade -/

/-- The message of `ibutton_worker_read_start` (line 91). -/
def ibutton_worker_read_start (key : Option Nat) : iButtonMessage :=
  { type := .iButtonMessageRead, key := key }

/-- The message of `ibutton_worker_write_start` (line 96). -/
def ibutton_worker_write_start (key : Option Nat) : iButtonMessage :=
  { type := .iButtonMessageWrite, key := key }

/-- The message of `ibutton_worker_emulate_start` (line 101). -/
def ibutton_worker_emulate_start (key : Option Nat) : iButtonMessage :=
  { type := .iButtonMessageEmulate, key := key }

/-- The message of `ibutton_worker_stop` (line 106). -/
def ibutton_worker_stop : iButtonMessage :=
  { type := .iButtonMessageStop, key := none }

/-- The message of `ibutton_worker_stop_thread` (line 137). -/
def ibutton_worker_stop_thread : iButtonMessage :=
  { type := .iButtonMessageEnd, key := none }

/-! ## Mode switch and thread -/

/-- The function `ibutton_worker_switch_mode` (lines 142-146): the worker after
the three statements, and the three events they produce. -/
def ibutton_worker_switch_mode {H : Type} (modes : ModeTable H)
    (worker : iButtonWorker H) (mode : iButtonWorkerMode) :
    iButtonWorker H × List Event :=
  let w1 := (modes worker.mode_index).stop worker
  let w2 := { w1 with mode_index := mode }
  let w3 := (modes w2.mode_index).start w2
  (w3, [.stop worker.mode_index, .assign mode, .start w2.mode_index])

/-- The function `ibutton_worker_set_key_p` (lines 148-150). -/
def ibutton_worker_set_key_p {H : Type} (worker : iButtonWorker H)
    (key : Option Nat) : iButtonWorker H :=
  { worker with key_p := key }

/-- State of the loop after one iteration. -/
structure LoopStep (H : Type) where
  worker : iButtonWorker H
  running : Bool
  events : List Event

/-- One iteration of the `while(running)` body (lines 161-191) on the status that
`osMessageQueueGet` returned; `none` is `furi_crash("iButton worker error")`. -/
def loop_body {H : Type} (modes : ModeTable H) (worker : iButtonWorker H) :
    QueueGet → Option (LoopStep H)
  | .osOK message =>
    match message.type with
    | .iButtonMessageEnd =>
      let r := ibutton_worker_switch_mode modes worker .iButtonWorkerIdle
      some { worker := ibutton_worker_set_key_p r.1 none, running := false, events := r.2 }
    | .iButtonMessageStop =>
      let r := ibutton_worker_switch_mode modes worker .iButtonWorkerIdle
      some { worker := ibutton_worker_set_key_p r.1 none, running := true, events := r.2 }
    | .iButtonMessageRead =>
      let r := ibutton_worker_switch_mode modes
        (ibutton_worker_set_key_p worker message.key) .iButtonWorkerRead
      some { worker := r.1, running := true, events := r.2 }
    | .iButtonMessageWrite =>
      let r := ibutton_worker_switch_mode modes
        (ibutton_worker_set_key_p worker message.key) .iButtonWorkerWrite
      some { worker := r.1, running := true, events := r.2 }
    | .iButtonMessageEmulate =>
      let r := ibutton_worker_switch_mode modes
        (ibutton_worker_set_key_p worker message.key) .iButtonWorkerEmulate
      some { worker := r.1, running := true, events := r.2 }
  | .osErrorTimeout =>
    some { worker := (modes worker.mode_index).tick worker, running := true,
           events := [.tick worker.mode_index] }
  | .osErrorOther => none

/-- How a run of the thread function stands once the given statuses are used up. -/
inductive ThreadExit where
  | returned (code : Int)
  | crashed
  | waiting
  deriving DecidableEq, Repr

/-- Outcome of a run: how it stands, the worker, and the events in order. -/
structure ThreadRun (H : Type) where
  exit : ThreadExit
  worker : iButtonWorker H
  trace : List Event

/-- The thread function from the head of the loop on (lines 160-196): the loop
on the successive statuses, then the `stop` of line 194 and `return 0`.  With no
status left the thread is blocked in `osMessageQueueGet`. -/
def ibutton_worker_thread_loop {H : Type} (modes : ModeTable H) :
    iButtonWorker H → List QueueGet → ThreadRun H
  | worker, [] => { exit := .waiting, worker := worker, trace := [] }
  | worker, status :: rest =>
    match loop_body modes worker status with
    | none => { exit := .crashed, worker := worker, trace := [] }
    | some st =>
      if st.running then
        let r := ibutton_worker_thread_loop modes st.worker rest
        { r with trace := st.events ++ r.trace }
      else
        { exit := .returned 0
          worker := (modes st.worker.mode_index).stop st.worker
          trace := st.events ++ [.stop st.worker.mode_index] }

/-- The function `ibutton_worker_thread` (lines 152-197). -/
def ibutton_worker_thread {H : Type} (modes : ModeTable H)
    (worker : iButtonWorker H) (statuses : List QueueGet) : ThreadRun H :=
  let w0 := (modes worker.mode_index).start worker
  let r := ibutton_worker_thread_loop modes w0 statuses
  { r with trace := .start worker.mode_index :: r.trace }

/-! ## Properties used in the statements -/

/-- A hook that leaves `mode_index` and `key_p` as it found them. -/
def KeepsModeAndKey {H : Type} (hook : iButtonWorker H → iButtonWorker H) : Prop :=
  ∀ w, (hook w).mode_index = w.mode_index ∧ (hook w).key_p = w.key_p

/-- Modelled from the spec: the hooks of `ibutton_worker_modes` are defined
outside `ibutton_worker.c`; the spec says of them that `mode` is mutated only by
the worker thread, between a `stop` and the following `start`, and that a hook
does not change mode automatically.  `HooksKeepModeAndKey modes` says that every
hook of the table leaves `mode_index` and `key_p` unchanged. -/
def HooksKeepModeAndKey {H : Type} (modes : ModeTable H) : Prop :=
  ∀ m, KeepsModeAndKey (modes m).start ∧ KeepsModeAndKey (modes m).tick ∧
    KeepsModeAndKey (modes m).stop

/-- A concrete table over `H = Nat`: each hook counts its calls in `hw`
(`start` in units, `tick` in hundreds, `stop` in ten-thousands). -/
def tallyModes : ModeTable Nat := fun _ =>
  { quant := 1
    start := fun w => { w with hw := w.hw + 1 }
    tick := fun w => { w with hw := w.hw + 100 }
    stop := fun w => { w with hw := w.hw + 10000 } }

/-- The modes in which an operation is in flight. -/
def ActiveMode (m : iButtonWorkerMode) : Prop :=
  m = .iButtonWorkerRead ∨ m = .iButtonWorkerWrite ∨ m = .iButtonWorkerEmulate

/-- The state invariant of the spec: the mode is one of the four, and `key_p` is
non-null exactly in the three active modes. -/
def KeyInvariant {H : Type} (w : iButtonWorker H) : Prop :=
  (w.mode_index = .iButtonWorkerIdle ∨ ActiveMode w.mode_index) ∧
    (w.key_p ≠ none ↔ ActiveMode w.mode_index)

/-- A status whose message, when it starts an operation, carries a non-null key. -/
def startKeyNonNull : QueueGet → Bool
  | .osOK ⟨.iButtonMessageRead, none⟩ => false
  | .osOK ⟨.iButtonMessageWrite, none⟩ => false
  | .osOK ⟨.iButtonMessageEmulate, none⟩ => false
  | _ => true

/-- Whether a status is a received `End` message. -/
def isEnd : QueueGet → Bool
  | .osOK ⟨.iButtonMessageEnd, _⟩ => true
  | _ => false

/-- The worker on which the incoming `start` hook runs when a start command with
key `k` and target mode `m` is processed in state `w`: `key_p` was set, the
outgoing `stop` hook ran, `mode_index` was assigned. -/
def startHookArgument {H : Type} (modes : ModeTable H) (w : iButtonWorker H)
    (k : Option Nat) (m : iButtonWorkerMode) : iButtonWorker H :=
  { (modes w.mode_index).stop (ibutton_worker_set_key_p w k) with mode_index := m }

/-- State of the observer that checks the order of the events: nothing seen yet;
`start m` ran last; a `stop` ran last; `mode_index` was assigned after a `stop`. -/
inductive Observer where
  | fresh
  | held (m : iButtonWorkerMode)
  | released
  | assigned (m : iButtonWorkerMode)
  deriving DecidableEq, Repr

/-- One event against the observer; `none` rejects.  A `start` is accepted only
as the first event or right after the assignment of its own mode, an assignment
only right after a `stop`, and a `stop` or `tick` only for the mode whose `start`
ran last. -/
def Observer.step : Observer → Event → Option Observer
  | .fresh, .start m => some (.held m)
  | .held m, .tick m' => if m = m' then some (.held m) else none
  | .held m, .stop m' => if m = m' then some .released else none
  | .released, .assign m => some (.assigned m)
  | .assigned m, .start m' => if m = m' then some (.held m) else none
  | _, _ => none

/-- The observer over a whole trace. -/
def Observer.run : Observer → List Event → Option Observer
  | s, [] => some s
  | s, e :: es =>
    match s.step e with
    | none => none
    | some s' => Observer.run s' es

/-- The modes whose resources are claimed after a trace, starting from `acc`: a
`start` claims for its mode, a `stop` releases for its mode. -/
def claimedFrom : List iButtonWorkerMode → List Event → List iButtonWorkerMode
  | acc, [] => acc
  | acc, .start m :: es => claimedFrom (m :: acc) es
  | acc, .stop m :: es => claimedFrom (acc.erase m) es
  | acc, _ :: es => claimedFrom acc es

/-- The modes whose resources the observer counts as claimed in each state. -/
def Observer.claims : Observer → List iButtonWorkerMode
  | .held m => [m]
  | _ => []

/-- The modes whose resources are claimed after a trace of a thread run. -/
def claimed (trace : List Event) : List iButtonWorkerMode := claimedFrom [] trace

/-! ## The thread as the spec lays it out -/

/-- A step that the spec prescribes for the worker thread: an event (a hook call
or the assignment of the mode), or a write of the active key. -/
inductive Action where
  | event (e : Event)
  | setKey (key : Option Nat)
  deriving DecidableEq, Repr

/-- Carrying out one action on a worker: a hook event applies that hook of the
table entry of the named mode, an assignment writes `mode_index`, a key write
writes `key_p`. -/
def Action.apply {H : Type} (modes : ModeTable H) :
    Action → iButtonWorker H → iButtonWorker H
  | .event (.start m), w => (modes m).start w
  | .event (.stop m), w => (modes m).stop w
  | .event (.tick m), w => (modes m).tick w
  | .event (.assign m), w => { w with mode_index := m }
  | .setKey key, w => { w with key_p := key }

/-- Carrying out a list of actions, first to last. -/
def applyActions {H : Type} (modes : ModeTable H) :
    iButtonWorker H → List Action → iButtonWorker H
  | w, [] => w
  | w, a :: rest => applyActions modes (a.apply modes w) rest

/-- The events among a list of actions, in order. -/
def eventsOf : List Action → List Event
  | [] => []
  | .event e :: rest => e :: eventsOf rest
  | .setKey _ :: rest => eventsOf rest

/-- The transition rule of the spec (4.1): call `stop` on the outgoing mode's
hook, assign the new mode, call `start` on the incoming mode's hook. -/
def specTransition (cur new : iButtonWorkerMode) : List Action :=
  [.event (.stop cur), .event (.assign new), .event (.start new)]

/-- The loop of the spec (4.3) as the list of actions it prescribes from mode
`cur` on the given statuses: `End` makes the transition to `Idle`, clears the
key, leaves the loop, and the outgoing `stop` runs once more; `Stop` makes the
transition to `Idle` and clears the key; `Read`/`Write`/`Emulate` set the key
and make the transition to their mode; a timeout is one `tick` of the current
mode; any other status ends the task. -/
def specLoop : iButtonWorkerMode → List QueueGet → List Action
  | _, [] => []
  | cur, .osOK message :: rest =>
    match message.type with
    | .iButtonMessageEnd =>
      specTransition cur .iButtonWorkerIdle ++
        [.setKey none, .event (.stop .iButtonWorkerIdle)]
    | .iButtonMessageStop =>
      specTransition cur .iButtonWorkerIdle ++
        .setKey none :: specLoop .iButtonWorkerIdle rest
    | .iButtonMessageRead =>
      .setKey message.key :: specTransition cur .iButtonWorkerRead ++
        specLoop .iButtonWorkerRead rest
    | .iButtonMessageWrite =>
      .setKey message.key :: specTransition cur .iButtonWorkerWrite ++
        specLoop .iButtonWorkerWrite rest
    | .iButtonMessageEmulate =>
      .setKey message.key :: specTransition cur .iButtonWorkerEmulate ++
        specLoop .iButtonWorkerEmulate rest
  | cur, .osErrorTimeout :: rest => .event (.tick cur) :: specLoop cur rest
  | _, .osErrorOther :: _ => []

/-- The thread of the spec: the `start` of the mode it finds, then the loop. -/
def specThread (cur : iButtonWorkerMode) (statuses : List QueueGet) : List Action :=
  .event (.start cur) :: specLoop cur statuses

/-! ## Auxiliary lemmas -/

theorem tallyModes_keep : HooksKeepModeAndKey tallyModes := by
  intro m
  refine ⟨?_, ?_, ?_⟩ <;> intro w <;> exact ⟨rfl, rfl⟩

theorem switch_mode_events {H : Type} (modes : ModeTable H) (w : iButtonWorker H)
    (mode : iButtonWorkerMode) :
    (ibutton_worker_switch_mode modes w mode).2 =
      [.stop w.mode_index, .assign mode, .start mode] := rfl

theorem switch_mode_mode {H : Type} (modes : ModeTable H)
    (hk : HooksKeepModeAndKey modes) (w : iButtonWorker H) (mode : iButtonWorkerMode) :
    (ibutton_worker_switch_mode modes w mode).1.mode_index = mode := by
  simp only [ibutton_worker_switch_mode]
  rw [((hk mode).1 _).1]

theorem switch_mode_key {H : Type} (modes : ModeTable H)
    (hk : HooksKeepModeAndKey modes) (w : iButtonWorker H) (mode : iButtonWorkerMode) :
    (ibutton_worker_switch_mode modes w mode).1.key_p = w.key_p := by
  simp only [ibutton_worker_switch_mode]
  rw [((hk mode).1 _).2]
  exact ((hk w.mode_index).2.2 w).2

theorem thread_loop_timeout {H : Type} (modes : ModeTable H) (w : iButtonWorker H)
    (rest : List QueueGet) :
    ibutton_worker_thread_loop modes w (.osErrorTimeout :: rest) =
      { ibutton_worker_thread_loop modes ((modes w.mode_index).tick w) rest with
        trace := .tick w.mode_index ::
          (ibutton_worker_thread_loop modes ((modes w.mode_index).tick w) rest).trace } := by
  simp [ibutton_worker_thread_loop, loop_body]

theorem thread_loop_ticks {H : Type} (modes : ModeTable H)
    (hk : HooksKeepModeAndKey modes) (n : Nat) (w : iButtonWorker H) :
    (ibutton_worker_thread_loop modes w (List.replicate n .osErrorTimeout)).exit = .waiting ∧
    (ibutton_worker_thread_loop modes w (List.replicate n .osErrorTimeout)).trace =
      List.replicate n (.tick w.mode_index) ∧
    (ibutton_worker_thread_loop modes w (List.replicate n .osErrorTimeout)).worker =
      ((modes w.mode_index).tick)^[n] w ∧
    (ibutton_worker_thread_loop modes w
      (List.replicate n .osErrorTimeout)).worker.mode_index = w.mode_index ∧
    (ibutton_worker_thread_loop modes w
      (List.replicate n .osErrorTimeout)).worker.key_p = w.key_p := by
  induction n generalizing w with
  | zero => simp [ibutton_worker_thread_loop]
  | succ n ih =>
    have hm := ((hk w.mode_index).2.1 w).1
    have hp := ((hk w.mode_index).2.1 w).2
    obtain ⟨h1, h2, h3, h4, h5⟩ := ih ((modes w.mode_index).tick w)
    rw [List.replicate_succ, thread_loop_timeout]
    refine ⟨h1, ?_, ?_, ?_, ?_⟩
    · simp only [h2, hm, List.replicate_succ]
    · simp only [h3, hm, Function.iterate_succ_apply]
    · simp only [h4, hm]
    · simp only [h5, hp]

theorem thread_loop_end {H : Type} (modes : ModeTable H) (w : iButtonWorker H)
    (key : Option Nat) (rest : List QueueGet) :
    ibutton_worker_thread_loop modes w (.osOK ⟨.iButtonMessageEnd, key⟩ :: rest) =
      { exit := .returned 0
        worker := (modes (ibutton_worker_set_key_p
            (ibutton_worker_switch_mode modes w .iButtonWorkerIdle).1 none).mode_index).stop
          (ibutton_worker_set_key_p
            (ibutton_worker_switch_mode modes w .iButtonWorkerIdle).1 none)
        trace := (ibutton_worker_switch_mode modes w .iButtonWorkerIdle).2 ++
          [.stop (ibutton_worker_set_key_p
            (ibutton_worker_switch_mode modes w .iButtonWorkerIdle).1 none).mode_index] } := by
  simp [ibutton_worker_thread_loop, loop_body]

theorem thread_loop_running {H : Type} (modes : ModeTable H) (w : iButtonWorker H)
    (status : QueueGet) (rest : List QueueGet) (st : LoopStep H)
    (hb : loop_body modes w status = some st) (hr : st.running = true) :
    ibutton_worker_thread_loop modes w (status :: rest) =
      { ibutton_worker_thread_loop modes st.worker rest with
        trace := st.events ++ (ibutton_worker_thread_loop modes st.worker rest).trace } := by
  simp [ibutton_worker_thread_loop, hb, hr]

theorem thread_loop_crash {H : Type} (modes : ModeTable H) (w : iButtonWorker H)
    (rest : List QueueGet) :
    ibutton_worker_thread_loop modes w (.osErrorOther :: rest) =
      { exit := .crashed, worker := w, trace := [] } := by
  simp [ibutton_worker_thread_loop, loop_body]

/-- What an iteration does to `mode_index` and `key_p` when the hooks keep them:
the new mode and key are those that the message dictates. -/
theorem loop_body_effect {H : Type} (modes : ModeTable H)
    (hk : HooksKeepModeAndKey modes) (w : iButtonWorker H) (ty : iButtonMessageType)
    (key : Option Nat) :
    ∃ st, loop_body modes w (.osOK ⟨ty, key⟩) = some st ∧
      st.running = (if ty = .iButtonMessageEnd then false else true) ∧
      st.worker.mode_index =
        (match ty with
          | .iButtonMessageEnd => .iButtonWorkerIdle
          | .iButtonMessageStop => .iButtonWorkerIdle
          | .iButtonMessageRead => .iButtonWorkerRead
          | .iButtonMessageWrite => .iButtonWorkerWrite
          | .iButtonMessageEmulate => .iButtonWorkerEmulate) ∧
      st.worker.key_p =
        (match ty with
          | .iButtonMessageEnd => none
          | .iButtonMessageStop => none
          | _ => key) ∧
      st.events = [.stop w.mode_index, .assign st.worker.mode_index,
        .start st.worker.mode_index] := by
  cases ty
  · exact ⟨_, rfl, rfl, switch_mode_mode modes hk w _, rfl,
      by simp [loop_body, switch_mode_events, ibutton_worker_set_key_p,
        switch_mode_mode modes hk w _]⟩
  · exact ⟨_, rfl, rfl, switch_mode_mode modes hk w _, rfl,
      by simp [loop_body, switch_mode_events, ibutton_worker_set_key_p,
        switch_mode_mode modes hk w _]⟩
  · exact ⟨_, rfl, rfl, switch_mode_mode modes hk _ _, switch_mode_key modes hk _ _,
      by simp [loop_body, switch_mode_events, switch_mode_mode modes hk _ _]; rfl⟩
  · exact ⟨_, rfl, rfl, switch_mode_mode modes hk _ _, switch_mode_key modes hk _ _,
      by simp [loop_body, switch_mode_events, switch_mode_mode modes hk _ _]; rfl⟩
  · exact ⟨_, rfl, rfl, switch_mode_mode modes hk _ _, switch_mode_key modes hk _ _,
      by simp [loop_body, switch_mode_events, switch_mode_mode modes hk _ _]; rfl⟩

theorem keyInvariant_congr {H : Type} (w w' : iButtonWorker H)
    (hm : w'.mode_index = w.mode_index) (hp : w'.key_p = w.key_p)
    (h : KeyInvariant w) : KeyInvariant w' := by
  unfold KeyInvariant at *
  rw [hm, hp]
  exact h

theorem keyInvariant_alloc {H : Type} (hw0 : H) :
    KeyInvariant (ibutton_worker_alloc hw0) := by
  simp [KeyInvariant, ActiveMode, ibutton_worker_alloc]

theorem loop_body_keyInvariant {H : Type} (modes : ModeTable H)
    (hk : HooksKeepModeAndKey modes) (w : iButtonWorker H) (status : QueueGet)
    (st : LoopStep H) (hinv : KeyInvariant w) (hkey : startKeyNonNull status = true)
    (hb : loop_body modes w status = some st) : KeyInvariant st.worker := by
  cases status with
  | osOK message =>
    obtain ⟨ty, key⟩ := message
    obtain ⟨st', hst', -, hm, hp, -⟩ := loop_body_effect modes hk w ty key
    rw [hb] at hst'
    cases hst'
    cases ty <;> cases key <;>
      simp_all [KeyInvariant, ActiveMode, startKeyNonNull]
  | osErrorTimeout =>
    simp only [loop_body, Option.some.injEq] at hb
    subst hb
    exact keyInvariant_congr w _ ((hk _).2.1 w).1 ((hk _).2.1 w).2 hinv
  | osErrorOther => simp [loop_body] at hb

theorem thread_loop_keyInvariant {H : Type} (modes : ModeTable H)
    (hk : HooksKeepModeAndKey modes) (statuses : List QueueGet) :
    ∀ w : iButtonWorker H, KeyInvariant w →
      (∀ s ∈ statuses, startKeyNonNull s = true) →
      KeyInvariant (ibutton_worker_thread_loop modes w statuses).worker := by
  induction statuses with
  | nil => intro w hinv _; simpa [ibutton_worker_thread_loop] using hinv
  | cons status rest ih =>
    intro w hinv hkeys
    have hhead := hkeys status (List.mem_cons_self _ _)
    have htail : ∀ s ∈ rest, startKeyNonNull s = true :=
      fun s hs => hkeys s (List.mem_cons_of_mem _ hs)
    cases hb : loop_body modes w status with
    | none => simpa [ibutton_worker_thread_loop, hb] using hinv
    | some st =>
      have hst := loop_body_keyInvariant modes hk w status st hinv hhead hb
      cases hr : st.running with
      | true =>
        rw [thread_loop_running modes w status rest st hb hr]
        exact ih st.worker hst htail
      | false =>
        simp only [ibutton_worker_thread_loop, hb, hr]
        exact keyInvariant_congr st.worker _ ((hk _).2.2 _).1 ((hk _).2.2 _).2 hst

theorem thread_loop_returned {H : Type} (modes : ModeTable H)
    (hk : HooksKeepModeAndKey modes) (statuses : List QueueGet) :
    ∀ (w : iButtonWorker H) (code : Int),
      (ibutton_worker_thread_loop modes w statuses).exit = .returned code →
      code = 0 ∧ (∃ s ∈ statuses, isEnd s = true) ∧
      (ibutton_worker_thread_loop modes w statuses).worker.mode_index =
        .iButtonWorkerIdle := by
  induction statuses with
  | nil => intro w code h; simp [ibutton_worker_thread_loop] at h
  | cons status rest ih =>
    intro w code h
    cases status with
    | osOK message =>
      obtain ⟨ty, key⟩ := message
      by_cases hty : ty = .iButtonMessageEnd
      · subst hty
        rw [thread_loop_end] at h ⊢
        simp only [ThreadExit.returned.injEq] at h
        refine ⟨h.symm, ⟨_, List.mem_cons_self _ _, rfl⟩, ?_⟩
        simp only
        rw [((hk _).2.2 _).1]
        exact switch_mode_mode modes hk w .iButtonWorkerIdle
      · obtain ⟨st, hst, hr, -⟩ := loop_body_effect modes hk w ty key
        simp only [hty, if_false] at hr
        rw [thread_loop_running modes w _ rest st hst hr] at h ⊢
        obtain ⟨h0, ⟨s, hs, he⟩, hm⟩ := ih st.worker code h
        exact ⟨h0, ⟨s, List.mem_cons_of_mem _ hs, he⟩, hm⟩
    | osErrorTimeout =>
      rw [thread_loop_timeout] at h ⊢
      obtain ⟨h0, ⟨s, hs, he⟩, hm⟩ := ih _ code h
      exact ⟨h0, ⟨s, List.mem_cons_of_mem _ hs, he⟩, hm⟩
    | osErrorOther => rw [thread_loop_crash] at h; simp at h

theorem observer_run_append (a b : List Event) :
    ∀ s : Observer, Observer.run s (a ++ b) =
      (Observer.run s a).bind (fun s' => Observer.run s' b) := by
  induction a with
  | nil => intro s; rfl
  | cons e es ih =>
    intro s
    simp only [List.cons_append, Observer.run]
    cases s.step e with
    | none => rfl
    | some s' => exact ih s'

theorem observer_run_take (tr : List Event) :
    ∀ (s s' : Observer) (n : Nat), Observer.run s tr = some s' →
      ∃ s'', Observer.run s (tr.take n) = some s'' := by
  induction tr with
  | nil => intro s s' n h; exact ⟨s, by simp [Observer.run]⟩
  | cons e es ih =>
    intro s s' n h
    cases n with
    | zero => exact ⟨s, by simp [Observer.run]⟩
    | succ n =>
      simp only [Observer.run] at h
      simp only [List.take_succ_cons, Observer.run]
      cases hs : s.step e with
      | none => simp [hs] at h
      | some s1 =>
        simp only [hs] at h
        exact ih s1 s' n h

theorem claimedFrom_step (s s1 : Observer) (e : Event) (es : List Event)
    (hs : s.step e = some s1) :
    claimedFrom s.claims (e :: es) = claimedFrom s1.claims es := by
  cases s <;> cases e <;> simp only [Observer.step] at hs <;>
    first
      | (cases hs; done)
      | (cases hs; simp [claimedFrom, Observer.claims])
      | (split at hs
         · cases hs
           subst_vars
           simp [claimedFrom, Observer.claims]
         · cases hs)

theorem claimedFrom_of_run (tr : List Event) :
    ∀ s s' : Observer, Observer.run s tr = some s' →
      claimedFrom s.claims tr = s'.claims := by
  induction tr with
  | nil =>
    intro s s' h
    simp only [Observer.run, Option.some.injEq] at h
    subst h
    rfl
  | cons e es ih =>
    intro s s' h
    simp only [Observer.run] at h
    cases hs : s.step e with
    | none => simp [hs] at h
    | some s1 =>
      simp only [hs] at h
      rw [claimedFrom_step s s1 e es hs]
      exact ih s1 s' h

theorem observer_claims_length (s : Observer) : s.claims.length ≤ 1 := by
  cases s <;> simp [Observer.claims]

theorem observer_thread_loop {H : Type} (modes : ModeTable H)
    (hk : HooksKeepModeAndKey modes) (statuses : List QueueGet) :
    ∀ w : iButtonWorker H, ∃ s,
      Observer.run (.held w.mode_index)
        (ibutton_worker_thread_loop modes w statuses).trace = some s := by
  induction statuses with
  | nil => intro w; exact ⟨_, rfl⟩
  | cons status rest ih =>
    intro w
    cases status with
    | osOK message =>
      obtain ⟨ty, key⟩ := message
      obtain ⟨st, hst, hr, -, -, hev⟩ := loop_body_effect modes hk w ty key
      have hseg : Observer.run (.held w.mode_index) st.events =
          some (.held st.worker.mode_index) := by
        rw [hev]; simp [Observer.run, Observer.step]
      by_cases hty : ty = .iButtonMessageEnd
      · subst hty
        simp only [if_true] at hr
        refine ⟨.released, ?_⟩
        simp only [ibutton_worker_thread_loop, hst, hr, Bool.false_eq_true, if_false]
        rw [observer_run_append, hseg]
        simp [Observer.run, Observer.step]
      · simp only [hty, if_false] at hr
        obtain ⟨s, hs⟩ := ih st.worker
        refine ⟨s, ?_⟩
        rw [thread_loop_running modes w _ rest st hst hr]
        simp only
        rw [observer_run_append, hseg]
        exact hs
    | osErrorTimeout =>
      obtain ⟨s, hs⟩ := ih ((modes w.mode_index).tick w)
      refine ⟨s, ?_⟩
      rw [thread_loop_timeout]
      simp only [Observer.run, Observer.step, if_true]
      rw [((hk _).2.1 w).1] at hs
      exact hs
    | osErrorOther => rw [thread_loop_crash]; exact ⟨_, rfl⟩

theorem thread_loop_refines {H : Type} (modes : ModeTable H)
    (hk : HooksKeepModeAndKey modes) (statuses : List QueueGet) :
    ∀ w : iButtonWorker H,
      (ibutton_worker_thread_loop modes w statuses).worker =
        applyActions modes w (specLoop w.mode_index statuses) ∧
      (ibutton_worker_thread_loop modes w statuses).trace =
        eventsOf (specLoop w.mode_index statuses) := by
  induction statuses with
  | nil => intro w; exact ⟨rfl, rfl⟩
  | cons status rest ih =>
    intro w
    cases status with
    | osOK message =>
      obtain ⟨ty, key⟩ := message
      obtain ⟨st, hst, hr, hm, -, -⟩ := loop_body_effect modes hk w ty key
      cases ty
      · rw [thread_loop_end]
        have hidle : (ibutton_worker_set_key_p
            (ibutton_worker_switch_mode modes w .iButtonWorkerIdle).1 none).mode_index =
            .iButtonWorkerIdle := switch_mode_mode modes hk w .iButtonWorkerIdle
        simp only [hidle]
        exact ⟨rfl, rfl⟩
      all_goals
        simp only [reduceCtorEq, if_false] at hr
        simp only at hm
        obtain ⟨h1, h2⟩ := ih st.worker
        rw [hm] at h1 h2
        rw [thread_loop_running modes w _ rest st hst hr]
        simp only [h1, h2]
        cases hst
        exact ⟨rfl, rfl⟩
    | osErrorTimeout =>
      obtain ⟨h1, h2⟩ := ih ((modes w.mode_index).tick w)
      rw [((hk _).2.1 w).1] at h1 h2
      rw [thread_loop_timeout]
      simp only [h1, h2]
      exact ⟨rfl, rfl⟩
    | osErrorOther => rw [thread_loop_crash]; exact ⟨rfl, rfl⟩

theorem thread_refines {H : Type} (modes : ModeTable H)
    (hk : HooksKeepModeAndKey modes) (w : iButtonWorker H) (statuses : List QueueGet) :
    (ibutton_worker_thread modes w statuses).worker =
      applyActions modes w (specThread w.mode_index statuses) ∧
    (ibutton_worker_thread modes w statuses).trace =
      eventsOf (specThread w.mode_index statuses) := by
  obtain ⟨h1, h2⟩ := thread_loop_refines modes hk statuses ((modes w.mode_index).start w)
  rw [((hk _).1 w).1] at h1 h2
  exact ⟨h1, by simp only [ibutton_worker_thread, h2]; rfl⟩

/-! ## Callback registration -/

/-- C4: each of the three callback setters fails its `furi_check` exactly when
`mode_index` is not `Idle`, and the worker is then as it was (no callback is
changed); when `mode_index` is `Idle` the call succeeds and the corresponding
callback field holds the supplied function.  In particular the read setter
fails when `mode_index` is `Read`. -/
theorem set_callback_checks_idle {H : Type} (w : iButtonWorker H)
    (callback context : Option Nat) :
    ((ibutton_worker_read_set_callback w callback context = .furi_check_failed w ↔
        w.mode_index ≠ .iButtonWorkerIdle) ∧
      (w.mode_index = .iButtonWorkerIdle ↔
        ∃ w', ibutton_worker_read_set_callback w callback context = .ok w' ∧
          w'.read_cb = callback)) ∧
    ((ibutton_worker_write_set_callback w callback context = .furi_check_failed w ↔
        w.mode_index ≠ .iButtonWorkerIdle) ∧
      (w.mode_index = .iButtonWorkerIdle ↔
        ∃ w', ibutton_worker_write_set_callback w callback context = .ok w' ∧
          w'.write_cb = callback)) ∧
    ((ibutton_worker_emulate_set_callback w callback context = .furi_check_failed w ↔
        w.mode_index ≠ .iButtonWorkerIdle) ∧
      (w.mode_index = .iButtonWorkerIdle ↔
        ∃ w', ibutton_worker_emulate_set_callback w callback context = .ok w' ∧
          w'.emulate_cb = callback)) ∧
    (w.mode_index = .iButtonWorkerRead →
      ibutton_worker_read_set_callback w callback context = .furi_check_failed w) := by
  by_cases h : w.mode_index = .iButtonWorkerIdle
  · simp [ibutton_worker_read_set_callback, ibutton_worker_write_set_callback,
      ibutton_worker_emulate_set_callback, h]
  · simp [ibutton_worker_read_set_callback, ibutton_worker_write_set_callback,
      ibutton_worker_emulate_set_callback, h]

/-- C4, at concrete workers: a worker in mode `Read` refuses all three setters,
and a freshly allocated worker accepts the read callback. -/
theorem set_callback_checks_idle_witness :
    ibutton_worker_read_set_callback
        { ibutton_worker_alloc 0 with mode_index := .iButtonWorkerRead, key_p := some 7 }
        (some 1) (some 2) =
      .furi_check_failed
        { ibutton_worker_alloc 0 with mode_index := .iButtonWorkerRead, key_p := some 7 } ∧
    ∃ w', ibutton_worker_read_set_callback (ibutton_worker_alloc 0) (some 1) (some 2) =
        .ok w' ∧ w'.read_cb = some 1 :=
  ⟨(set_callback_checks_idle
      { ibutton_worker_alloc 0 with mode_index := .iButtonWorkerRead, key_p := some 7 }
      (some 1) (some 2)).2.2.2 rfl,
   (set_callback_checks_idle (ibutton_worker_alloc 0) (some 1) (some 2)).1.2.mp rfl⟩

/-- C5 as stated fails: the worker has one context field.  After the read
callback `1` is registered with context `11`, registering the write callback `2`
with context `22` leaves `read_cb = 1` but the context is `22`; `11` is lost. -/
theorem set_callback_context_overwritten :
    ∃ w1 w2,
      ibutton_worker_read_set_callback (ibutton_worker_alloc 0) (some 1) (some 11) = .ok w1 ∧
      w1.read_cb = some 1 ∧ w1.cb_ctx = some 11 ∧
      ibutton_worker_write_set_callback w1 (some 2) (some 22) = .ok w2 ∧
      w2.read_cb = some 1 ∧ w2.cb_ctx = some 22 ∧ w2.cb_ctx ≠ w1.cb_ctx :=
  ⟨_, _, rfl, rfl, rfl, rfl, rfl, rfl, by decide⟩

/-- C5, amended: for every `Idle` worker, registering one callback stores the
supplied function in its own field, leaves the functions of the other two
callbacks (and every other field) unchanged, and sets the single shared context
`cb_ctx` to the supplied context. -/
theorem set_callback_frame {H : Type} (w : iButtonWorker H)
    (callback context : Option Nat) (hidle : w.mode_index = .iButtonWorkerIdle) :
    ibutton_worker_read_set_callback w callback context =
      .ok { w with read_cb := callback, cb_ctx := context } ∧
    ibutton_worker_write_set_callback w callback context =
      .ok { w with write_cb := callback, cb_ctx := context } ∧
    ibutton_worker_emulate_set_callback w callback context =
      .ok { w with emulate_cb := callback, cb_ctx := context } := by
  simp [ibutton_worker_read_set_callback, ibutton_worker_write_set_callback,
    ibutton_worker_emulate_set_callback, hidle]

/-- C5, amended, at a worker whose read callback `1` is registered with
context `11`. -/
theorem set_callback_frame_witness :
    ibutton_worker_write_set_callback
        { ibutton_worker_alloc 0 with read_cb := some 1, cb_ctx := some 11 }
        (some 2) (some 22) =
      .ok { ibutton_worker_alloc 0 with
            read_cb := some 1, write_cb := some 2, cb_ctx := some 22 } :=
  (set_callback_frame
    { ibutton_worker_alloc 0 with read_cb := some 1, cb_ctx := some 11 }
    (some 2) (some 22) rfl).2.1

/-! ## Commands -/

/-- C2: for every worker state (in particular one whose mode is `Read`, `Write`
or `Emulate`) and hooks that keep `mode_index` and `key_p`, processing a `Stop`
message yields `mode_index = Idle` and `key_p = NULL` with `running` still true:
the loop goes on with the remaining statuses from that state. -/
theorem stop_command_returns_to_idle {H : Type} (modes : ModeTable H)
    (hk : HooksKeepModeAndKey modes) (w : iButtonWorker H) (key : Option Nat) :
    ∃ st, loop_body modes w (.osOK ⟨.iButtonMessageStop, key⟩) = some st ∧
      st.running = true ∧
      st.worker.mode_index = .iButtonWorkerIdle ∧ st.worker.key_p = none ∧
      ∀ rest, ibutton_worker_thread_loop modes w
          (.osOK ⟨.iButtonMessageStop, key⟩ :: rest) =
        { ibutton_worker_thread_loop modes st.worker rest with
          trace := st.events ++ (ibutton_worker_thread_loop modes st.worker rest).trace } := by
  refine ⟨_, rfl, rfl, ?_, rfl, ?_⟩
  · exact switch_mode_mode modes hk w .iButtonWorkerIdle
  · intro rest
    simp [ibutton_worker_thread_loop, loop_body]

/-- C2, at the counting table: a worker writing key `7` that receives the message
of `ibutton_worker_stop`. -/
theorem stop_command_returns_to_idle_witness :
    HooksKeepModeAndKey tallyModes ∧
    ∃ st, loop_body tallyModes
        { ibutton_worker_alloc 0 with mode_index := .iButtonWorkerWrite, key_p := some 7 }
        (.osOK ⟨.iButtonMessageStop, none⟩) = some st ∧
      st.running = true ∧
      st.worker.mode_index = .iButtonWorkerIdle ∧ st.worker.key_p = none ∧
      ∀ rest, ibutton_worker_thread_loop tallyModes
          { ibutton_worker_alloc 0 with mode_index := .iButtonWorkerWrite, key_p := some 7 }
          (.osOK ⟨.iButtonMessageStop, none⟩ :: rest) =
        { ibutton_worker_thread_loop tallyModes st.worker rest with
          trace := st.events ++
            (ibutton_worker_thread_loop tallyModes st.worker rest).trace } :=
  ⟨tallyModes_keep, stop_command_returns_to_idle tallyModes tallyModes_keep _ none⟩

/-- C6: for every worker state, every key `k` and hooks that keep `mode_index`
and `key_p`, processing `Read(k)`, `Write(k)` or `Emulate(k)` sets `key_p = k`
first and then switches: the incoming `start` hook runs on a worker whose
`key_p` is already `k` and whose `mode_index` is the new mode, the resulting
state has `key_p = k` and the corresponding mode, and `running` stays true. -/
theorem start_command_sets_key_then_switches {H : Type} (modes : ModeTable H)
    (hk : HooksKeepModeAndKey modes) (w : iButtonWorker H) (k : Option Nat) :
    (∀ m, (startHookArgument modes w k m).key_p = k ∧
        (startHookArgument modes w k m).mode_index = m ∧
        ((modes m).start (startHookArgument modes w k m)).key_p = k ∧
        ((modes m).start (startHookArgument modes w k m)).mode_index = m) ∧
    loop_body modes w (.osOK ⟨.iButtonMessageRead, k⟩) =
      some { worker := (modes .iButtonWorkerRead).start
               (startHookArgument modes w k .iButtonWorkerRead)
             running := true
             events := [.stop w.mode_index, .assign .iButtonWorkerRead,
               .start .iButtonWorkerRead] } ∧
    loop_body modes w (.osOK ⟨.iButtonMessageWrite, k⟩) =
      some { worker := (modes .iButtonWorkerWrite).start
               (startHookArgument modes w k .iButtonWorkerWrite)
             running := true
             events := [.stop w.mode_index, .assign .iButtonWorkerWrite,
               .start .iButtonWorkerWrite] } ∧
    loop_body modes w (.osOK ⟨.iButtonMessageEmulate, k⟩) =
      some { worker := (modes .iButtonWorkerEmulate).start
               (startHookArgument modes w k .iButtonWorkerEmulate)
             running := true
             events := [.stop w.mode_index, .assign .iButtonWorkerEmulate,
               .start .iButtonWorkerEmulate] } := by
  refine ⟨?_, rfl, rfl, rfl⟩
  intro m
  have hstop := (hk w.mode_index).2.2 (ibutton_worker_set_key_p w k)
  have harg : (startHookArgument modes w k m).key_p = k := hstop.2
  have hstart := (hk m).1 (startHookArgument modes w k m)
  exact ⟨harg, rfl, hstart.2.trans harg, hstart.1⟩

/-- C6, at the counting table: an idle worker that receives the message of
`ibutton_worker_emulate_start` with key `7`. -/
theorem start_command_sets_key_then_switches_witness :
    HooksKeepModeAndKey tallyModes ∧
    loop_body tallyModes (ibutton_worker_alloc 0)
        (.osOK (ibutton_worker_emulate_start (some 7))) =
      some { worker := { ibutton_worker_alloc 10001 with
                         key_p := some 7, mode_index := .iButtonWorkerEmulate }
             running := true
             events := [.stop .iButtonWorkerIdle, .assign .iButtonWorkerEmulate,
               .start .iButtonWorkerEmulate] } :=
  ⟨tallyModes_keep,
   (start_command_sets_key_then_switches tallyModes tallyModes_keep
      (ibutton_worker_alloc 0) (some 7)).2.2.2⟩

/-- C7: for every worker state with current mode `M` (`Idle` included) and hooks
that keep `mode_index` and `key_p`, an `End` message runs `stop(M)`, assigns
`Idle`, runs `start(Idle)`, clears `key_p` and leaves the loop; then `stop(Idle)`
runs once more and the thread function returns `0`, whatever statuses would
follow.  The worker after the iteration is `start(Idle)` applied to `stop(M)` of
the initial worker with `Idle` assigned in between, with the key cleared; the
worker the thread leaves is `stop(Idle)` applied to that one.  It has
`mode_index = Idle` and `key_p = NULL`. -/
theorem end_command_stops_thread {H : Type} (modes : ModeTable H)
    (hk : HooksKeepModeAndKey modes) (w : iButtonWorker H) (key : Option Nat)
    (rest : List QueueGet) :
    (∃ st, loop_body modes w (.osOK ⟨.iButtonMessageEnd, key⟩) = some st ∧
      st.running = false ∧
      st.events = [.stop w.mode_index, .assign .iButtonWorkerIdle,
        .start .iButtonWorkerIdle] ∧
      st.worker =
        ibutton_worker_set_key_p
          ((modes .iButtonWorkerIdle).start
            { (modes w.mode_index).stop w with mode_index := .iButtonWorkerIdle }) none ∧
      st.worker.mode_index = .iButtonWorkerIdle ∧ st.worker.key_p = none) ∧
    (ibutton_worker_thread_loop modes w
      (.osOK ⟨.iButtonMessageEnd, key⟩ :: rest)).exit = .returned 0 ∧
    (ibutton_worker_thread_loop modes w
      (.osOK ⟨.iButtonMessageEnd, key⟩ :: rest)).trace =
      [.stop w.mode_index, .assign .iButtonWorkerIdle, .start .iButtonWorkerIdle,
        .stop .iButtonWorkerIdle] ∧
    (ibutton_worker_thread_loop modes w
      (.osOK ⟨.iButtonMessageEnd, key⟩ :: rest)).worker =
      (modes .iButtonWorkerIdle).stop
        (ibutton_worker_set_key_p
          ((modes .iButtonWorkerIdle).start
            { (modes w.mode_index).stop w with mode_index := .iButtonWorkerIdle }) none) ∧
    (ibutton_worker_thread_loop modes w
      (.osOK ⟨.iButtonMessageEnd, key⟩ :: rest)).worker.mode_index = .iButtonWorkerIdle ∧
    (ibutton_worker_thread_loop modes w
      (.osOK ⟨.iButtonMessageEnd, key⟩ :: rest)).worker.key_p = none := by
  have hmode := switch_mode_mode modes hk w .iButtonWorkerIdle
  have hsk : (ibutton_worker_set_key_p
      (ibutton_worker_switch_mode modes w .iButtonWorkerIdle).1 none).mode_index =
      .iButtonWorkerIdle := hmode
  have hworker : (ibutton_worker_thread_loop modes w
      (.osOK ⟨.iButtonMessageEnd, key⟩ :: rest)).worker =
      (modes .iButtonWorkerIdle).stop
        (ibutton_worker_set_key_p
          ((modes .iButtonWorkerIdle).start
            { (modes w.mode_index).stop w with mode_index := .iButtonWorkerIdle }) none) := by
    rw [thread_loop_end]
    simp only [hsk]
    rfl
  refine ⟨⟨_, rfl, rfl, rfl, rfl, hmode, rfl⟩, ?_, ?_, hworker, ?_, ?_⟩
  · simp [ibutton_worker_thread_loop, loop_body]
  · simp [ibutton_worker_thread_loop, loop_body, switch_mode_events, hsk]
  · rw [hworker, ((hk _).2.2 _).1]
    exact hmode
  · rw [hworker, ((hk _).2.2 _).2]
    rfl

/-- C7, at the counting table, for `M = Idle`: a freshly allocated worker that
receives the message of `ibutton_worker_stop_thread`; the two `stop` calls and
the `start` call are counted in `hw`. -/
theorem end_command_stops_thread_witness :
    HooksKeepModeAndKey tallyModes ∧
    (ibutton_worker_thread_loop tallyModes (ibutton_worker_alloc 0)
      [.osOK ibutton_worker_stop_thread, .osErrorTimeout]).exit = .returned 0 ∧
    (ibutton_worker_thread_loop tallyModes (ibutton_worker_alloc 0)
      [.osOK ibutton_worker_stop_thread, .osErrorTimeout]).trace =
      [.stop .iButtonWorkerIdle, .assign .iButtonWorkerIdle, .start .iButtonWorkerIdle,
        .stop .iButtonWorkerIdle] ∧
    (ibutton_worker_thread_loop tallyModes (ibutton_worker_alloc 0)
      [.osOK ibutton_worker_stop_thread, .osErrorTimeout]).worker =
      ibutton_worker_alloc 20001 :=
  ⟨tallyModes_keep,
   (end_command_stops_thread tallyModes tallyModes_keep (ibutton_worker_alloc 0) none
      [.osErrorTimeout]).2.1,
   (end_command_stops_thread tallyModes tallyModes_keep (ibutton_worker_alloc 0) none
      [.osErrorTimeout]).2.2.1,
   (end_command_stops_thread tallyModes tallyModes_keep (ibutton_worker_alloc 0) none
      [.osErrorTimeout]).2.2.2.1⟩

/-! ## The thread -/

/-- C1 as stated fails: a start message can carry a null key.  From the state of
`ibutton_worker_alloc`, the message of `ibutton_worker_read_start(worker, NULL)`
leaves `mode_index = Read` with `key_p = NULL`. -/
theorem key_invariant_fails_on_null_key :
    (ibutton_worker_thread tallyModes (ibutton_worker_alloc 0)
      [.osOK (ibutton_worker_read_start none)]).worker.mode_index = .iButtonWorkerRead ∧
    (ibutton_worker_thread tallyModes (ibutton_worker_alloc 0)
      [.osOK (ibutton_worker_read_start none)]).worker.key_p = none ∧
    ¬ KeyInvariant (ibutton_worker_thread tallyModes (ibutton_worker_alloc 0)
      [.osOK (ibutton_worker_read_start none)]).worker := by
  refine ⟨rfl, rfl, ?_⟩
  intro h
  have hactive : ActiveMode (ibutton_worker_thread tallyModes (ibutton_worker_alloc 0)
      [.osOK (ibutton_worker_read_start none)]).worker.mode_index := Or.inl rfl
  exact (h.2.mpr hactive) rfl

/-- C1, amended: for hooks that keep `mode_index` and `key_p`, and every finite
sequence of statuses in which each `Read`, `Write` or `Emulate` message carries a
non-null key, the thread started from the state of `ibutton_worker_alloc` has,
after each status processed, a `mode_index` that is one of the four modes and a
`key_p` that is non-null exactly when the mode is `Read`, `Write` or `Emulate`. -/
theorem key_invariant_after_each_command {H : Type} (modes : ModeTable H)
    (hk : HooksKeepModeAndKey modes) (hw0 : H) (statuses : List QueueGet)
    (hkeys : ∀ s ∈ statuses, startKeyNonNull s = true) (n : Nat) :
    KeyInvariant
      (ibutton_worker_thread modes (ibutton_worker_alloc hw0) (statuses.take n)).worker := by
  have hstart : KeyInvariant
      ((modes (ibutton_worker_alloc hw0).mode_index).start (ibutton_worker_alloc hw0)) :=
    keyInvariant_congr _ _ ((hk _).1 _).1 ((hk _).1 _).2 (keyInvariant_alloc hw0)
  exact thread_loop_keyInvariant modes hk (statuses.take n) _ hstart
    (fun s hs => hkeys s (List.mem_of_mem_take hs))

/-- C1, amended, at the counting table: read key `7`, time out, stop, write key
`8`, end; the invariant holds after the first four statuses. -/
theorem key_invariant_after_each_command_witness :
    HooksKeepModeAndKey tallyModes ∧
    (∀ s ∈ [QueueGet.osOK (ibutton_worker_read_start (some 7)), .osErrorTimeout,
        .osOK ibutton_worker_stop, .osOK (ibutton_worker_write_start (some 8)),
        .osOK ibutton_worker_stop_thread], startKeyNonNull s = true) ∧
    KeyInvariant
      (ibutton_worker_thread tallyModes (ibutton_worker_alloc 0)
        ([QueueGet.osOK (ibutton_worker_read_start (some 7)), .osErrorTimeout,
          .osOK ibutton_worker_stop, .osOK (ibutton_worker_write_start (some 8)),
          .osOK ibutton_worker_stop_thread].take 4)).worker :=
  ⟨tallyModes_keep, by decide,
   key_invariant_after_each_command tallyModes tallyModes_keep 0 _ (by decide) 4⟩

/-- C3: for hooks that keep `mode_index` and `key_p`, every worker state and
every sequence of statuses.  The worker that a run of the thread leaves is the
initial worker with the actions of the spec's thread carried out on it in order,
each hook event applying the hook it names, and the trace is the list of the
events among these actions; a mode switch is `start` of the new mode applied to
`stop` of the old mode with `mode_index` assigned in between.  The trace is
accepted by the observer: each `start` after the first is immediately preceded
by the assignment of its mode, itself immediately preceded by the `stop` of the
mode whose `start` ran last.  Hence after every initial segment of the trace at
most one mode's resources are claimed. -/
theorem stop_strictly_before_start {H : Type} (modes : ModeTable H)
    (hk : HooksKeepModeAndKey modes) (w : iButtonWorker H) (statuses : List QueueGet) :
    (ibutton_worker_thread modes w statuses).worker =
      applyActions modes w (specThread w.mode_index statuses) ∧
    (ibutton_worker_thread modes w statuses).trace =
      eventsOf (specThread w.mode_index statuses) ∧
    (∀ m, ibutton_worker_switch_mode modes w m =
      ((modes m).start { (modes w.mode_index).stop w with mode_index := m },
        [.stop w.mode_index, .assign m, .start m])) ∧
    (∃ s, Observer.run .fresh (ibutton_worker_thread modes w statuses).trace = some s) ∧
    ∀ n, (claimed ((ibutton_worker_thread modes w statuses).trace.take n)).length ≤ 1 := by
  have hrun : ∃ s, Observer.run .fresh
      (ibutton_worker_thread modes w statuses).trace = some s := by
    obtain ⟨s, hs⟩ := observer_thread_loop modes hk statuses
      ((modes w.mode_index).start w)
    refine ⟨s, ?_⟩
    rw [((hk _).1 w).1] at hs
    simpa [ibutton_worker_thread, Observer.run, Observer.step] using hs
  refine ⟨(thread_refines modes hk w statuses).1, (thread_refines modes hk w statuses).2,
    fun _ => rfl, hrun, ?_⟩
  intro n
  obtain ⟨s, hs⟩ := hrun
  obtain ⟨s', hs'⟩ := observer_run_take _ .fresh s n hs
  have hc := claimedFrom_of_run _ .fresh s' hs'
  have hl := observer_claims_length s'
  rw [← hc] at hl
  exact hl

/-- C3, at the counting table: read key `7`, two timeouts, emulate key `8`, end.
The trace is spelled out, and `hw` counts four `start`, two `tick` and four
`stop` calls. -/
theorem stop_strictly_before_start_witness :
    HooksKeepModeAndKey tallyModes ∧
    (ibutton_worker_thread tallyModes (ibutton_worker_alloc 0)
      [.osOK (ibutton_worker_read_start (some 7)), .osErrorTimeout, .osErrorTimeout,
        .osOK (ibutton_worker_emulate_start (some 8)),
        .osOK ibutton_worker_stop_thread]).trace =
      [.start .iButtonWorkerIdle,
        .stop .iButtonWorkerIdle, .assign .iButtonWorkerRead, .start .iButtonWorkerRead,
        .tick .iButtonWorkerRead, .tick .iButtonWorkerRead,
        .stop .iButtonWorkerRead, .assign .iButtonWorkerEmulate,
        .start .iButtonWorkerEmulate,
        .stop .iButtonWorkerEmulate, .assign .iButtonWorkerIdle, .start .iButtonWorkerIdle,
        .stop .iButtonWorkerIdle] ∧
    applyActions tallyModes (ibutton_worker_alloc 0)
      (specThread .iButtonWorkerIdle
        [.osOK (ibutton_worker_read_start (some 7)), .osErrorTimeout, .osErrorTimeout,
          .osOK (ibutton_worker_emulate_start (some 8)),
          .osOK ibutton_worker_stop_thread]) = ibutton_worker_alloc 40204 ∧
    (ibutton_worker_thread tallyModes (ibutton_worker_alloc 0)
      [.osOK (ibutton_worker_read_start (some 7)), .osErrorTimeout, .osErrorTimeout,
        .osOK (ibutton_worker_emulate_start (some 8)),
        .osOK ibutton_worker_stop_thread]).worker =
      applyActions tallyModes (ibutton_worker_alloc 0)
        (specThread .iButtonWorkerIdle
          [.osOK (ibutton_worker_read_start (some 7)), .osErrorTimeout, .osErrorTimeout,
            .osOK (ibutton_worker_emulate_start (some 8)),
            .osOK ibutton_worker_stop_thread]) ∧
    (∃ s, Observer.run .fresh (ibutton_worker_thread tallyModes (ibutton_worker_alloc 0)
      [.osOK (ibutton_worker_read_start (some 7)), .osErrorTimeout, .osErrorTimeout,
        .osOK (ibutton_worker_emulate_start (some 8)),
        .osOK ibutton_worker_stop_thread]).trace = some s) ∧
    ∀ n, (claimed ((ibutton_worker_thread tallyModes (ibutton_worker_alloc 0)
      [.osOK (ibutton_worker_read_start (some 7)), .osErrorTimeout, .osErrorTimeout,
        .osOK (ibutton_worker_emulate_start (some 8)),
        .osOK ibutton_worker_stop_thread]).trace.take n)).length ≤ 1 :=
  ⟨tallyModes_keep, rfl, rfl,
   (stop_strictly_before_start tallyModes tallyModes_keep (ibutton_worker_alloc 0) _).1,
   (stop_strictly_before_start tallyModes tallyModes_keep
      (ibutton_worker_alloc 0) _).2.2.2⟩

/-- C9: for hooks that keep `mode_index` and `key_p`, every worker state and
every number `n` of consecutive timeouts: one timeout is exactly one call of the
current mode's `tick` hook, with `running` unchanged; after `n` timeouts the
trace is `n` ticks of the current mode, the worker is the `n`-fold `tick` of the
initial one, and `mode_index` and `key_p` are as before.  After a `Write(key)`
message the mode is `Write` and `key_p` is `key` through any number of ticks. -/
theorem ticks_keep_mode_and_key {H : Type} (modes : ModeTable H)
    (hk : HooksKeepModeAndKey modes) (w : iButtonWorker H) (n : Nat) (key : Option Nat) :
    loop_body modes w .osErrorTimeout =
      some { worker := (modes w.mode_index).tick w, running := true,
             events := [.tick w.mode_index] } ∧
    ((ibutton_worker_thread_loop modes w (List.replicate n .osErrorTimeout)).exit = .waiting ∧
      (ibutton_worker_thread_loop modes w (List.replicate n .osErrorTimeout)).trace =
        List.replicate n (.tick w.mode_index) ∧
      (ibutton_worker_thread_loop modes w (List.replicate n .osErrorTimeout)).worker =
        ((modes w.mode_index).tick)^[n] w ∧
      (ibutton_worker_thread_loop modes w
        (List.replicate n .osErrorTimeout)).worker.mode_index = w.mode_index ∧
      (ibutton_worker_thread_loop modes w
        (List.replicate n .osErrorTimeout)).worker.key_p = w.key_p) ∧
    ((ibutton_worker_thread_loop modes w
        (.osOK (ibutton_worker_write_start key) ::
          List.replicate n .osErrorTimeout)).exit = .waiting ∧
      (ibutton_worker_thread_loop modes w
        (.osOK (ibutton_worker_write_start key) ::
          List.replicate n .osErrorTimeout)).trace =
        [.stop w.mode_index, .assign .iButtonWorkerWrite, .start .iButtonWorkerWrite] ++
          List.replicate n (.tick .iButtonWorkerWrite) ∧
      (ibutton_worker_thread_loop modes w
        (.osOK (ibutton_worker_write_start key) ::
          List.replicate n .osErrorTimeout)).worker.mode_index = .iButtonWorkerWrite ∧
      (ibutton_worker_thread_loop modes w
        (.osOK (ibutton_worker_write_start key) ::
          List.replicate n .osErrorTimeout)).worker.key_p = key) := by
  refine ⟨rfl, thread_loop_ticks modes hk n w, ?_⟩
  obtain ⟨st, hst, hr, hm, hp, hev⟩ :=
    loop_body_effect modes hk w .iButtonMessageWrite key
  simp only [reduceCtorEq, if_false] at hr
  simp only at hm hp
  obtain ⟨h1, h2, -, h4, h5⟩ := thread_loop_ticks modes hk n st.worker
  have hcons := thread_loop_running modes w
    (.osOK (ibutton_worker_write_start key)) (List.replicate n .osErrorTimeout) st hst hr
  rw [hcons]
  refine ⟨h1, ?_, ?_, ?_⟩
  · simp only [h2, hev, hm]
  · simp only [h4, hm]
  · simp only [h5, hp]

/-- C9, at the counting table: a fresh worker, the message of
`ibutton_worker_write_start` with key `7`, then three timeouts. -/
theorem ticks_keep_mode_and_key_witness :
    HooksKeepModeAndKey tallyModes ∧
    (ibutton_worker_thread_loop tallyModes (ibutton_worker_alloc 0)
      (.osOK (ibutton_worker_write_start (some 7)) ::
        List.replicate 3 .osErrorTimeout)).worker.mode_index = .iButtonWorkerWrite ∧
    (ibutton_worker_thread_loop tallyModes (ibutton_worker_alloc 0)
      (.osOK (ibutton_worker_write_start (some 7)) ::
        List.replicate 3 .osErrorTimeout)).worker.key_p = some 7 ∧
    (ibutton_worker_thread_loop tallyModes (ibutton_worker_alloc 0)
      (.osOK (ibutton_worker_write_start (some 7)) ::
        List.replicate 3 .osErrorTimeout)).worker.hw = 10301 :=
  ⟨tallyModes_keep,
   (ticks_keep_mode_and_key tallyModes tallyModes_keep (ibutton_worker_alloc 0) 3
      (some 7)).2.2.2.2.1,
   (ticks_keep_mode_and_key tallyModes tallyModes_keep (ibutton_worker_alloc 0) 3
      (some 7)).2.2.2.2.2,
   rfl⟩

/-- C10: a run of the thread is the loop entered on the worker to which the
`start` hook of the mode found in `mode_index` has been applied, and that
`start` is its first event, before any status is received.  For a worker fresh
from `ibutton_worker_alloc` the hook is `start(Idle)`.  With hooks that keep
`mode_index` and `key_p`, a run that returned did so with code `0` after an
`End` message and left `mode_index = Idle`, so the next run on that worker is
the loop entered on `start(Idle)` of it, with `start(Idle)` as first event. -/
theorem thread_first_enters_idle_start {H : Type} (modes : ModeTable H)
    (hk : HooksKeepModeAndKey modes) (hw0 : H) (w : iButtonWorker H)
    (statuses next : List QueueGet) :
    ibutton_worker_thread modes (ibutton_worker_alloc hw0) statuses =
      { ibutton_worker_thread_loop modes
          ((modes .iButtonWorkerIdle).start (ibutton_worker_alloc hw0)) statuses with
        trace := .start .iButtonWorkerIdle ::
          (ibutton_worker_thread_loop modes
            ((modes .iButtonWorkerIdle).start (ibutton_worker_alloc hw0)) statuses).trace } ∧
    (ibutton_worker_thread modes (ibutton_worker_alloc hw0) statuses).trace.head? =
      some (.start .iButtonWorkerIdle) ∧
    ibutton_worker_thread modes (ibutton_worker_alloc hw0) [] =
      { exit := .waiting
        worker := (modes .iButtonWorkerIdle).start (ibutton_worker_alloc hw0)
        trace := [.start .iButtonWorkerIdle] } ∧
    ibutton_worker_thread modes w statuses =
      { ibutton_worker_thread_loop modes ((modes w.mode_index).start w) statuses with
        trace := .start w.mode_index ::
          (ibutton_worker_thread_loop modes
            ((modes w.mode_index).start w) statuses).trace } ∧
    ∀ code, (ibutton_worker_thread modes w statuses).exit = .returned code →
      code = 0 ∧ (∃ s ∈ statuses, isEnd s = true) ∧
      (ibutton_worker_thread modes w statuses).worker.mode_index = .iButtonWorkerIdle ∧
      (ibutton_worker_thread modes
        (ibutton_worker_thread modes w statuses).worker next).trace.head? =
        some (.start .iButtonWorkerIdle) ∧
      ibutton_worker_thread modes (ibutton_worker_thread modes w statuses).worker next =
        { ibutton_worker_thread_loop modes
            ((modes .iButtonWorkerIdle).start
              (ibutton_worker_thread modes w statuses).worker) next with
          trace := .start .iButtonWorkerIdle ::
            (ibutton_worker_thread_loop modes
              ((modes .iButtonWorkerIdle).start
                (ibutton_worker_thread modes w statuses).worker) next).trace } := by
  refine ⟨rfl, rfl, rfl, rfl, ?_⟩
  intro code hcode
  obtain ⟨h0, hend, hm⟩ := thread_loop_returned modes hk statuses
    ((modes w.mode_index).start w) code hcode
  have hm' : (ibutton_worker_thread modes w statuses).worker.mode_index =
      .iButtonWorkerIdle := hm
  refine ⟨h0, hend, hm', ?_, ?_⟩
  · simp [ibutton_worker_thread, hm]
  · simp only [ibutton_worker_thread, hm]

/-- C10, at the counting table: a run that writes key `7` and ends, then a
second run on the worker it left, with one timeout.  The first run counts three
`start` and three `stop` calls in `hw`; the second adds its `start(Idle)` and
one `tick`. -/
theorem thread_first_enters_idle_start_witness :
    HooksKeepModeAndKey tallyModes ∧
    (ibutton_worker_thread tallyModes (ibutton_worker_alloc 0)
      [.osOK (ibutton_worker_write_start (some 7)),
        .osOK ibutton_worker_stop_thread]).exit = .returned 0 ∧
    (ibutton_worker_thread tallyModes (ibutton_worker_alloc 0)
      [.osOK (ibutton_worker_write_start (some 7)),
        .osOK ibutton_worker_stop_thread]).worker = ibutton_worker_alloc 30003 ∧
    (ibutton_worker_thread_loop tallyModes
      ((tallyModes .iButtonWorkerIdle).start (ibutton_worker_alloc 30003))
      [.osErrorTimeout]).worker = ibutton_worker_alloc 30104 ∧
    ibutton_worker_thread tallyModes
      (ibutton_worker_thread tallyModes (ibutton_worker_alloc 0)
        [.osOK (ibutton_worker_write_start (some 7)),
          .osOK ibutton_worker_stop_thread]).worker
      [.osErrorTimeout] =
      { ibutton_worker_thread_loop tallyModes
          ((tallyModes .iButtonWorkerIdle).start (ibutton_worker_alloc 30003))
          [.osErrorTimeout] with
        trace := .start .iButtonWorkerIdle ::
          (ibutton_worker_thread_loop tallyModes
            ((tallyModes .iButtonWorkerIdle).start (ibutton_worker_alloc 30003))
            [.osErrorTimeout]).trace } :=
  ⟨tallyModes_keep, rfl, rfl, rfl,
   ((thread_first_enters_idle_start tallyModes tallyModes_keep 0 (ibutton_worker_alloc 0)
      [.osOK (ibutton_worker_write_start (some 7)), .osOK ibutton_worker_stop_thread]
      [.osErrorTimeout]).2.2.2.2 0 rfl).2.2.2.2⟩

end IButtonWorker
